import Mathlib

/-!
Shallow embedding of the GoldLens factor pipeline (`factor_engine.py`).

Modelling conventions:
* Python floats are modelled as exact rationals (`ℚ`); `round(x, 3)` is
  round-half-to-even (Python's rounding mode) on `x * 1000`.
* Calendar dates are modelled as integers (a day index); an unparseable
  event timestamp is `none`.
* A pandas `DataFrame` is a `List` of rows; `groupby` output row order
  (pandas sorts group keys) is not modelled — every claim below is
  row-order independent — but group *contents* are modelled exactly.
* Dict lookups with `.get(k, d)` fallbacks become `Option` fields with
  `getD`.
-/

namespace GoldLens

/-- One entry of an event's `factor_tags` list.  Every field may be missing
(`tag.get(..., default)` in the source). -/
structure FactorTag where
  factor : Option String
  polarity : Option String
  strength : Option ℚ
  confidence : Option ℚ
deriving DecidableEq

/-- A structured event.  `timestamp_utc` holds the already-parsed calendar
date (`pd.to_datetime(ts).date()`), `none` when parsing raises. -/
structure Event where
  event_type : Option String
  timestamp_utc : Option ℤ
  factor_tags : List FactorTag
  event_id : Option String
deriving DecidableEq

/-- `config['event_types']`: maps an event-type code to an optional
`default_importance` (the inner dict may lack the key). -/
abbrev EventTypesConfig := List (String × Option ℚ)

/-- Python `round` to an integer: round half to even. -/
def roundHalfEven (q : ℚ) : ℤ :=
  let f := ⌊q⌋
  let r := q - f
  if r < 1/2 then f
  else if 1/2 < r then f + 1
  else if f % 2 = 0 then f else f + 1

/-- Python `round(q, 3)`. -/
def pyRound3 (q : ℚ) : ℚ := (roundHalfEven (q * 1000) : ℚ) / 1000

/-- Python `max` over a list; the `[]` case is unreachable in the source
(guarded by `if factor_tags:` / non-empty frames). -/
def pyMaxD {β : Type} [LinearOrder β] (dflt : β) : List β → β
  | [] => dflt
  | x :: xs => xs.foldl max x

/-- `np.mean` over a list of rationals. -/
def pyMean (xs : List ℚ) : ℚ := xs.sum / (xs.length : ℚ)

/-- `FactorEngine.calculate_event_impact_score`. -/
def calculate_event_impact_score (cfg : EventTypesConfig) (event : Event) : ℚ :=
  let event_type := event.event_type.getD "UNKNOWN"
  let type_importance := ((cfg.find? (fun p => p.1 = event_type)).bind Prod.snd).getD (1/2)
  let factor_tags := event.factor_tags
  let max_strength :=
    if factor_tags.isEmpty then 1/2
    else pyMaxD 0 (factor_tags.map (fun t => t.strength.getD 0))
  let avg_confidence :=
    if factor_tags.isEmpty then 1/2
    else pyMean (factor_tags.map (fun t => t.confidence.getD 0))
  let market_volatility_multiplier : ℚ := 1
  pyRound3 (type_importance * max_strength * avg_confidence * market_volatility_multiplier)

/-- One row of the intermediate `records` list built inside
`aggregate_factor_scores_by_day`. -/
structure RawRecord where
  date : ℤ
  factor_code : String
  signed_score : ℚ
  abs_score : ℚ
  event_id : String
deriving DecidableEq

/-- The record appended for one factor tag of one event (body of the inner
`for tag in event.get('factor_tags', [])` loop). -/
def tagRecord (impact : ℚ) (d : ℤ) (eid : String) (tag : FactorTag) : RawRecord :=
  let factor_code := tag.factor.getD ""
  let polarity := tag.polarity.getD "0"
  let strength := tag.strength.getD 0
  let signed_score :=
    if polarity = "+" then impact * strength
    else if polarity = "-" then -impact * strength
    else 0
  ⟨d, factor_code, signed_score, |signed_score|, eid⟩

/-- All records contributed by one event: none when the timestamp does not
parse (the `except: continue` branch), otherwise one per factor tag. -/
def eventRecords (cfg : EventTypesConfig) (event : Event) : List RawRecord :=
  match event.timestamp_utc with
  | none => []
  | some d =>
    let impact := calculate_event_impact_score cfg event
    event.factor_tags.map (tagRecord impact d (event.event_id.getD ""))

/-- One row of the aggregated daily-factor frame. -/
structure FactorDayRecord where
  date : ℤ
  factor_code : String
  score : ℚ
  intensity : ℚ
  event_count : ℕ
deriving DecidableEq

/-- Pandas `unique()` / first-occurrence deduplication, keeping input order. -/
def uniqueKeep {α : Type} [DecidableEq α] : List α → List α
  | [] => []
  | x :: xs => x :: (uniqueKeep xs).filter (fun y => y ≠ x)

/-- The aggregated row for one `(date, factor_code)` group key:
`signed_score` summed, `abs_score` summed, rows counted. -/
def groupRow (rs : List RawRecord) (k : ℤ × String) : FactorDayRecord :=
  let grp := rs.filter (fun r => r.date = k.1 ∧ r.factor_code = k.2)
  ⟨k.1, k.2, (grp.map (·.signed_score)).sum, (grp.map (·.abs_score)).sum, grp.length⟩

/-- `FactorEngine.aggregate_factor_scores_by_day`. -/
def aggregate_factor_scores_by_day (cfg : EventTypesConfig) (events : List Event) :
    List FactorDayRecord :=
  let records := events.flatMap (eventRecords cfg)
  (uniqueKeep (records.map (fun r => (r.date, r.factor_code)))).map (groupRow records)

/-- `pd.date_range(start, end, freq='D')`: every day from `s` to `e`
inclusive, empty when `e < s`. -/
def dateRange (s e : ℤ) : List ℤ :=
  (List.range (e - s + 1).toNat).map (fun (i : ℕ) => s + (i : ℤ))

/-- One row of the densified series: the aggregated values when the factor
has a row on that date, zeros otherwise (`reindex(..., fill_value=0)`). -/
def denseRow (daily : List FactorDayRecord) (f : String) (d : ℤ) : FactorDayRecord :=
  match daily.find? (fun r => r.factor_code = f ∧ r.date = d) with
  | some r => ⟨d, f, r.score, r.intensity, r.event_count⟩
  | none => ⟨d, f, 0, 0, 0⟩

/-- `FactorEngine.create_factor_timeseries`: per-factor blocks over the
full date range, concatenated in factor order. -/
def create_factor_timeseries (daily : List FactorDayRecord) (s e : ℤ) :
    List FactorDayRecord :=
  if daily.isEmpty then []
  else
    (uniqueKeep (daily.map (·.factor_code))).flatMap
      (fun f => (dateRange s e).map (denseRow daily f))

/-- One row of the aligned frame. -/
structure AlignedRow where
  date : ℤ
  factor_code : String
  score : ℚ
  intensity : ℚ
  event_count : ℕ
  gold_price : Option ℚ
  price_change_pct : Option ℚ
deriving DecidableEq

/-- `factor_ts.merge(price_data[['date','gold_price']], on='date', how='left')`:
keeps every left row in order; a left row with no matching price date gets a
missing price, one with matching dates gets one output row per match. -/
def mergeLeft (ts : List FactorDayRecord) (price : List (ℤ × ℚ)) :
    List (FactorDayRecord × Option ℚ) :=
  ts.flatMap (fun r =>
    match price.filter (fun p => p.1 = r.date) with
    | [] => [(r, none)]
    | ps => ps.map (fun p => (r, some p.2)))

/-- `aligned['gold_price'].ffill()`: carries the last non-missing price
forward over the WHOLE row list (not per factor group). -/
def ffillFrom (last : Option ℚ) :
    List (FactorDayRecord × Option ℚ) → List (FactorDayRecord × Option ℚ)
  | [] => []
  | (r, p) :: rest =>
    match p with
    | some v => (r, some v) :: ffillFrom (some v) rest
    | none => (r, last) :: ffillFrom last rest

/-- `groupby('factor_code')['gold_price'].pct_change() * 100`, carrying per
factor the previous row's price; missing (or zero, pandas `inf`) previous
price gives a missing percent change. -/
def addPct (seen : List (String × Option ℚ)) :
    List (FactorDayRecord × Option ℚ) → List AlignedRow
  | [] => []
  | (r, p) :: rest =>
    let prev : Option ℚ := ((seen.find? (fun q => q.1 = r.factor_code)).map Prod.snd).getD none
    let pct : Option ℚ :=
      match prev, p with
      | some pv, some cv => if pv = 0 then none else some ((cv - pv) / pv * 100)
      | _, _ => none
    ⟨r.date, r.factor_code, r.score, r.intensity, r.event_count, p, pct⟩ ::
      addPct ((r.factor_code, p) :: seen) rest

/-- `FactorEngine.align_with_price`. -/
def align_with_price (factor_ts : List FactorDayRecord) (price_data : List (ℤ × ℚ)) :
    List AlignedRow :=
  if factor_ts.isEmpty ∨ price_data.isEmpty then []
  else addPct [] (ffillFrom none (mergeLeft factor_ts price_data))

/-- An aligned row paired with its rolling-window cumulative intensity. -/
structure RollingRow where
  base : AlignedRow
  rolling_intensity : ℚ
deriving DecidableEq

/-- `rolling(window=w, min_periods=1).sum()`: entry `i` is the sum of the
last `w` values up to and including position `i`. -/
def rollingSums (w : ℕ) (xs : List ℚ) : List ℚ :=
  (List.range xs.length).map (fun i => ((xs.take (i + 1)).drop (i + 1 - w)).sum)

/-- Stable insertion keeping `a` before later elements with an equal key. -/
def insertSorted {α β : Type} [LinearOrder β] (key : α → β) (a : α) :
    List α → List α
  | [] => [a]
  | x :: xs => if key a ≤ key x then a :: x :: xs else x :: insertSorted key a xs

/-- Stable sort by a key, ascending (`sort_values`). -/
def sortOn {α β : Type} [LinearOrder β] (key : α → β) (l : List α) : List α :=
  l.foldr (insertSorted key) []

/-- One factor's block: rows sorted by date, each with its rolling intensity. -/
def factorRolling (w : ℕ) (rows : List AlignedRow) : List RollingRow :=
  let sorted := sortOn (·.date) rows
  List.zipWith (fun r s => ⟨r, s⟩) sorted (rollingSums w (sorted.map (·.intensity)))

/-- The `combined` frame: per-factor rolling blocks concatenated. -/
def combinedRows (aligned : List AlignedRow) (w : ℕ) : List RollingRow :=
  (uniqueKeep (aligned.map (·.factor_code))).flatMap
    (fun f => factorRolling w (aligned.filter (fun r => r.factor_code = f)))

/-- `combined.groupby('date')['rolling_intensity'].transform('sum')` at one date. -/
def dailyTotal (c : List RollingRow) (d : ℤ) : ℚ :=
  ((c.filter (fun r => r.base.date = d)).map (·.rolling_intensity)).sum

/-- One row of the influence curve (the selected output columns). -/
structure InfluenceRow where
  date : ℤ
  factor_code : String
  normalized_influence : ℚ
  rolling_intensity : ℚ
  score : ℚ
  gold_price : Option ℚ
deriving DecidableEq

/-- `FactorEngine.calculate_factor_influence_curve`. -/
def calculate_factor_influence_curve (aligned : List AlignedRow) (window_days : ℕ) :
    List InfluenceRow :=
  if aligned.isEmpty then []
  else
    let c := combinedRows aligned window_days
    c.map (fun r =>
      ⟨r.base.date, r.base.factor_code,
        r.rolling_intensity / (dailyTotal c r.base.date + 1/1000000),
        r.rolling_intensity, r.base.score, r.base.gold_price⟩)

/-- `FactorEngine.get_top_factors`. -/
def get_top_factors (curve : List InfluenceRow) (top_n recent_days : ℕ) :
    List (String × ℚ) :=
  if curve.isEmpty then []
  else
    let max_date := pyMaxD 0 (curve.map (·.date))
    let cutoff := max_date - (recent_days : ℤ)
    let recent := curve.filter (fun r => cutoff < r.date)
    let factors := uniqueKeep (recent.map (·.factor_code))
    let avgs := factors.map (fun f =>
      (f, pyMean ((recent.filter (fun r => r.factor_code = f)).map (·.normalized_influence))))
    (sortOn (fun p => -p.2) avgs).take top_n

/-- The full pipeline, each stage's output kept (aggregation, densification,
alignment, influence curve, ranking). -/
def run_pipeline (cfg : EventTypesConfig) (events : List Event)
    (price : List (ℤ × ℚ)) (s e : ℤ) (window_days top_n recent_days : ℕ) :
    List FactorDayRecord × List FactorDayRecord × List AlignedRow ×
      List InfluenceRow × List (String × ℚ) :=
  let daily := aggregate_factor_scores_by_day cfg events
  let ts := create_factor_timeseries daily s e
  let aligned := align_with_price ts price
  let curve := calculate_factor_influence_curve aligned window_days
  (daily, ts, aligned, curve, get_top_factors curve top_n recent_days)

/-- Per the spec: taxonomy lookup of the event type's default importance,
`0.5` when the type is unrecognized. -/
def specTypeImportance (cfg : EventTypesConfig) (event : Event) : ℚ :=
  match cfg.find? (fun p => p.1 = event.event_type.getD "UNKNOWN") with
  | none => 1/2
  | some p => p.2.getD (1/2)

/-- Per the spec: maximum tag strength, `0.5` when there are no tags. -/
def specMaxStrength (event : Event) : ℚ :=
  match event.factor_tags with
  | [] => 1/2
  | t :: ts => pyMaxD 0 ((t :: ts).map (fun x => x.strength.getD 0))

/-- Per the spec: mean tag confidence, `0.5` when there are no tags. -/
def specAvgConfidence (event : Event) : ℚ :=
  match event.factor_tags with
  | [] => 1/2
  | t :: ts => pyMean ((t :: ts).map (fun x => x.confidence.getD 0))

/-- Per the spec: the per-tag signed contribution,
`impact * strength` for `+`, `-impact * strength` for `-`, `0` otherwise. -/
def specSignedScore (impact : ℚ) (tag : FactorTag) : ℚ :=
  if tag.polarity.getD "0" = "+" then impact * tag.strength.getD 0
  else if tag.polarity.getD "0" = "-" then -impact * tag.strength.getD 0
  else 0

/-- Per the spec: the group's `score` — the sum of signed contributions of
every tag naming factor `f` on every event dated `d`. -/
def specGroupScore (cfg : EventTypesConfig) (events : List Event) (d : ℤ)
    (f : String) : ℚ :=
  (events.map (fun e =>
    if e.timestamp_utc = some d then
      ((e.factor_tags.filter (fun t => t.factor.getD "" = f)).map
        (fun t => specSignedScore (calculate_event_impact_score cfg e) t)).sum
    else 0)).sum

/-- Per the spec: the group's `intensity` — the sum of absolute signed
contributions. -/
def specGroupIntensity (cfg : EventTypesConfig) (events : List Event) (d : ℤ)
    (f : String) : ℚ :=
  (events.map (fun e =>
    if e.timestamp_utc = some d then
      ((e.factor_tags.filter (fun t => t.factor.getD "" = f)).map
        (fun t => |specSignedScore (calculate_event_impact_score cfg e) t|)).sum
    else 0)).sum

/-- Number of contributing (event, tag) pairs for a group: tags naming the
factor, over events dated `d`. -/
def specTagCount (events : List Event) (d : ℤ) (f : String) : ℕ :=
  (events.map (fun e =>
    if e.timestamp_utc = some d then
      (e.factor_tags.filter (fun t => t.factor.getD "" = f)).length
    else 0)).sum

/-- Per the claim: number of distinct contributing events — events dated `d`
carrying at least one tag naming factor `f`. -/
def specDistinctEventCount (events : List Event) (d : ℤ) (f : String) : ℕ :=
  (events.filter (fun e =>
    e.timestamp_utc = some d ∧ e.factor_tags.any (fun t => t.factor.getD "" = f))).length

def eventDupTags : Event :=
  ⟨some "T", some 0,
    [⟨some "F", some "+", some (1/2), some 1⟩,
     ⟨some "F", some "+", some (1/2), some 1⟩], some "e1"⟩

def eventNeutral : Event :=
  ⟨some "T", some 3, [⟨some "F", some "0", none, none⟩], none⟩

/-! ### Generic list lemmas -/

theorem mem_uniqueKeep {α : Type} [DecidableEq α] {l : List α} {a : α} :
    a ∈ uniqueKeep l ↔ a ∈ l := by
  induction l with
  | nil => simp [uniqueKeep]
  | cons x xs ih =>
    simp only [uniqueKeep, List.mem_cons, List.mem_filter, decide_eq_true_eq]
    constructor
    · rintro (h | ⟨h, _⟩)
      · exact Or.inl h
      · exact Or.inr (ih.mp h)
    · rintro (h | h)
      · exact Or.inl h
      · by_cases hx : a = x
        · exact Or.inl hx
        · exact Or.inr ⟨ih.mpr h, hx⟩

theorem nodup_uniqueKeep {α : Type} [DecidableEq α] (l : List α) :
    (uniqueKeep l).Nodup := by
  induction l with
  | nil => simp [uniqueKeep]
  | cons x xs ih =>
    rw [uniqueKeep, List.nodup_cons]
    refine ⟨?_, ih.filter _⟩
    intro hmem
    rcases List.mem_filter.mp hmem with ⟨_, hne⟩
    simp at hne

theorem length_filter_flatMap {α β : Type} (f : α → List β) (p : β → Bool)
    (l : List α) :
    ((l.flatMap f).filter p).length =
      (l.map (fun a => ((f a).filter p).length)).sum := by
  induction l with
  | nil => rfl
  | cons x xs ih => simp [List.flatMap_cons, List.filter_append, ih]

theorem sum_map_filter_flatMap {α β : Type} (f : α → List β) (p : β → Bool)
    (g : β → ℚ) (l : List α) :
    (((l.flatMap f).filter p).map g).sum =
      (l.map (fun a => (((f a).filter p).map g).sum)).sum := by
  induction l with
  | nil => rfl
  | cons x xs ih => simp [List.flatMap_cons, List.filter_append, ih]

theorem sum_map_div {α : Type} (l : List α) (g : α → ℚ) (c : ℚ) :
    (l.map (fun x => g x / c)).sum = (l.map g).sum / c := by
  induction l with
  | nil => simp
  | cons x xs ih => simp [ih, add_div]

theorem sum_ite_mem {α : Type} [DecidableEq α] {l : List α} (hl : l.Nodup)
    (a : α) (c : ℕ) :
    (l.map (fun x => if x = a then c else 0)).sum = if a ∈ l then c else 0 := by
  induction l with
  | nil => simp
  | cons x xs ih =>
    rcases List.nodup_cons.mp hl with ⟨hx, hxs⟩
    by_cases hxa : x = a
    · subst hxa
      simp [ih hxs, hx]
    · have hax : a ≠ x := fun h => hxa h.symm
      simp [hxa, hax, ih hxs]

theorem length_filter_eq_of_nodup {α : Type} [DecidableEq α] {l : List α}
    (hl : l.Nodup) (d : α) :
    (l.filter (fun x => x = d)).length = if d ∈ l then 1 else 0 := by
  induction l with
  | nil => simp
  | cons x xs ih =>
    rcases List.nodup_cons.mp hl with ⟨hx, hxs⟩
    by_cases hxd : x = d
    · subst hxd
      simp [List.filter_cons, ih hxs, hx]
    · have hdx : d ≠ x := fun h => hxd h.symm
      simp [List.filter_cons, hxd, hdx, ih hxs]

theorem mem_dateRange {s e d : ℤ} : d ∈ dateRange s e ↔ s ≤ d ∧ d ≤ e := by
  unfold dateRange
  rw [List.mem_map]
  constructor
  · rintro ⟨i, hi, rfl⟩
    rw [List.mem_range] at hi
    omega
  · rintro ⟨h1, h2⟩
    refine ⟨(d - s).toNat, ?_, ?_⟩
    · rw [List.mem_range]
      omega
    · omega

theorem nodup_dateRange (s e : ℤ) : (dateRange s e).Nodup := by
  unfold dateRange
  refine List.Nodup.map ?_ (List.nodup_range _)
  intro a b h
  have h2 : s + (a : ℤ) = s + (b : ℤ) := h
  omega

/-- `roundHalfEven` is the identity on integers. -/
theorem roundHalfEven_intCast (n : ℤ) : roundHalfEven (n : ℚ) = n := by
  unfold roundHalfEven
  norm_num

/-- Evaluation rule for `pyRound3` at an exact 3-decimal value. -/
theorem pyRound3_eq (x : ℚ) (n : ℤ) (h : x * 1000 = (n : ℚ)) :
    pyRound3 x = (n : ℚ) / 1000 := by
  unfold pyRound3
  rw [h, roundHalfEven_intCast]

/-! ### Spec-side definitions (stated from the claims, to be compared with
the source-side functions above) -/

/-- Shared bridge: the implemented impact score equals the spec's formula. -/
theorem impact_eq_spec (cfg : EventTypesConfig) (event : Event) :
    calculate_event_impact_score cfg event =
      pyRound3 (specTypeImportance cfg event * specMaxStrength event *
        specAvgConfidence event * 1) := by
  unfold calculate_event_impact_score specTypeImportance specMaxStrength
    specAvgConfidence
  cases h : cfg.find? (fun p => p.1 = event.event_type.getD "UNKNOWN") <;>
    cases ht : event.factor_tags <;>
      simp [h, ht, Option.bind]

/-! ### Claim theorems -/

/-- C6: for every event, `calculate_event_impact_score` returns
`round(type_importance * max_strength * avg_confidence * 1.0, 3)` with the
documented `0.5` fallbacks, and on a single-tag event with strength `0.8`,
confidence `0.9` and type importance `0.6` it returns exactly `0.432`. -/
theorem C6_impact_score_formula :
    (∀ (cfg : EventTypesConfig) (event : Event),
      calculate_event_impact_score cfg event =
        pyRound3 (specTypeImportance cfg event * specMaxStrength event *
          specAvgConfidence event * 1)) ∧
    calculate_event_impact_score [("CENTRAL_BANK_DECISION", some (6/10))]
      ⟨some "CENTRAL_BANK_DECISION", some 0,
        [⟨some "A1_REAL_YIELD", some "+", some (8/10), some (9/10)⟩],
        some "e1"⟩ = 432/1000 := by
  refine ⟨impact_eq_spec, ?_⟩
  rw [impact_eq_spec]
  have h1 : specTypeImportance [("CENTRAL_BANK_DECISION", some (6/10))]
      ⟨some "CENTRAL_BANK_DECISION", some 0,
        [⟨some "A1_REAL_YIELD", some "+", some (8/10), some (9/10)⟩],
        some "e1"⟩ = 6/10 := by
    simp [specTypeImportance, List.find?]
  rw [h1, specMaxStrength, specAvgConfidence]
  rw [pyRound3_eq _ 432 (by norm_num [pyMaxD, pyMean])]
  norm_num

/-- C10: a tag that lacks `strength`/`confidence` is read as `0` (not the
`0.5` fallback reserved for an empty tag list): with a non-empty tag list the
score maximizes/averages over `getD 0` values, and in aggregation a tag with
a missing strength contributes a zero signed score whatever its polarity. -/
theorem C10_missing_tag_fields_read_as_zero :
    (∀ (cfg : EventTypesConfig) (event : Event), event.factor_tags ≠ [] →
      calculate_event_impact_score cfg event =
        pyRound3 (specTypeImportance cfg event *
          pyMaxD 0 (event.factor_tags.map (fun t => t.strength.getD 0)) *
          pyMean (event.factor_tags.map (fun t => t.confidence.getD 0)) * 1)) ∧
    (∀ (impact : ℚ) (d : ℤ) (eid : String) (tag : FactorTag),
      tag.strength = none → (tagRecord impact d eid tag).signed_score = 0) := by
  constructor
  · intro cfg event h
    rw [impact_eq_spec]
    cases ht : event.factor_tags with
    | nil => exact absurd ht h
    | cons t ts => rw [specMaxStrength, specAvgConfidence, ht]
  · intro impact d eid tag hs
    simp only [tagRecord, hs, Option.getD]
    split <;> simp

/-- Concrete instantiation of `C10_missing_tag_fields_read_as_zero`. -/
theorem C10_witness :
    (calculate_event_impact_score []
        ⟨none, none, [⟨some "F", some "+", none, none⟩], none⟩ =
      pyRound3 (specTypeImportance []
          ⟨none, none, [⟨some "F", some "+", none, none⟩], none⟩ *
        pyMaxD 0 ([⟨some "F", some "+", none, none⟩].map
          (fun (t : FactorTag) => t.strength.getD 0)) *
        pyMean ([⟨some "F", some "+", none, none⟩].map
          (fun (t : FactorTag) => t.confidence.getD 0)) * 1)) ∧
    (tagRecord 1 0 "" ⟨some "F", some "+", none, none⟩).signed_score = 0 :=
  ⟨C10_missing_tag_fields_read_as_zero.1 []
      ⟨none, none, [⟨some "F", some "+", none, none⟩], none⟩ (by decide),
    C10_missing_tag_fields_read_as_zero.2 1 0 "" _ rfl⟩

/-- Events whose timestamp does not parse contribute no records. -/
theorem flatMap_eventRecords_filter (cfg : EventTypesConfig)
    (events : List Event) :
    events.flatMap (eventRecords cfg) =
      (events.filter (fun e => e.timestamp_utc.isSome)).flatMap
        (eventRecords cfg) := by
  induction events with
  | nil => rfl
  | cons e es ih =>
    cases h : e.timestamp_utc with
    | none => simp [List.flatMap_cons, List.filter_cons, h, eventRecords, ih]
    | some d => simp [List.flatMap_cons, List.filter_cons, h, ih]

/-- C8: aggregation never fails on an unparseable timestamp; such events
contribute nothing, and the output equals the output on the input with all
unparseable-timestamp events removed. -/
theorem C8_unparseable_events_are_skipped :
    ∀ (cfg : EventTypesConfig) (events : List Event),
      aggregate_factor_scores_by_day cfg events =
        aggregate_factor_scores_by_day cfg
          (events.filter (fun e => e.timestamp_utc.isSome)) := by
  intro cfg events
  unfold aggregate_factor_scores_by_day
  rw [flatMap_eventRecords_filter]

/-- C9: the pipeline is deterministic — identical inputs give identical
outputs at every stage (each stage is a pure function of its inputs). -/
theorem C9_pipeline_deterministic :
    ∀ (cfg₁ cfg₂ : EventTypesConfig) (ev₁ ev₂ : List Event)
      (pr₁ pr₂ : List (ℤ × ℚ)) (s₁ s₂ e₁ e₂ : ℤ) (w₁ w₂ n₁ n₂ r₁ r₂ : ℕ),
      cfg₁ = cfg₂ → ev₁ = ev₂ → pr₁ = pr₂ → s₁ = s₂ → e₁ = e₂ → w₁ = w₂ →
      n₁ = n₂ → r₁ = r₂ →
      run_pipeline cfg₁ ev₁ pr₁ s₁ e₁ w₁ n₁ r₁ =
        run_pipeline cfg₂ ev₂ pr₂ s₂ e₂ w₂ n₂ r₂ := by
  intros
  subst_vars
  rfl

@[simp] theorem tagRecord_date (i : ℚ) (d : ℤ) (eid : String) (t : FactorTag) :
    (tagRecord i d eid t).date = d := rfl

@[simp] theorem tagRecord_factor_code (i : ℚ) (d : ℤ) (eid : String)
    (t : FactorTag) : (tagRecord i d eid t).factor_code = t.factor.getD "" := rfl

@[simp] theorem tagRecord_signed_score (i : ℚ) (d : ℤ) (eid : String)
    (t : FactorTag) : (tagRecord i d eid t).signed_score = specSignedScore i t := rfl

@[simp] theorem tagRecord_abs_score (i : ℚ) (d : ℤ) (eid : String)
    (t : FactorTag) :
    (tagRecord i d eid t).abs_score = |specSignedScore i t| := rfl

/-- Rows of `aggregate_factor_scores_by_day` are exactly the `groupRow`s of
the flattened record list. -/
theorem mem_aggregate {cfg : EventTypesConfig} {events : List Event}
    {r : FactorDayRecord} (h : r ∈ aggregate_factor_scores_by_day cfg events) :
    ∃ k, r = groupRow (events.flatMap (eventRecords cfg)) k := by
  unfold aggregate_factor_scores_by_day at h
  rcases List.mem_map.mp h with ⟨k, _, hk⟩
  exact ⟨k, hk.symm⟩

/-- One event's contribution to a group's record list. -/
theorem eventRecords_filter_key (cfg : EventTypesConfig) (e : Event) (d : ℤ)
    (f : String) :
    (eventRecords cfg e).filter (fun r => r.date = d ∧ r.factor_code = f) =
      if e.timestamp_utc = some d then
        (e.factor_tags.filter (fun t => t.factor.getD "" = f)).map
          (tagRecord (calculate_event_impact_score cfg e) d (e.event_id.getD ""))
      else [] := by
  cases h : e.timestamp_utc with
  | none => simp [eventRecords, h]
  | some d2 =>
    simp only [eventRecords, h]
    by_cases hd : d2 = d
    · subst hd
      rw [if_pos rfl, List.filter_map]
      congr 1
      apply List.filter_congr
      intro t _
      simp [Function.comp]
    · rw [if_neg (fun hc => hd (Option.some.inj hc))]
      apply List.filter_eq_nil_iff.mpr
      intro r hr
      rcases List.mem_map.mp hr with ⟨t, _, rfl⟩
      simp [hd]
theorem C9_witness :
    run_pipeline [] [] [] 0 0 7 5 7 = run_pipeline [] [] [] 0 0 7 5 7 :=
  C9_pipeline_deterministic [] [] [] [] [] [] 0 0 0 0 7 7 5 5 7 7
    rfl rfl rfl rfl rfl rfl rfl rfl


theorem perEvent_score (cfg : EventTypesConfig) (e : Event) (d : ℤ) (f : String) :
    (((eventRecords cfg e).filter
      (fun r => r.date = d ∧ r.factor_code = f)).map (·.signed_score)).sum =
      (if e.timestamp_utc = some d then
        ((e.factor_tags.filter (fun t => t.factor.getD "" = f)).map
          (fun t => specSignedScore (calculate_event_impact_score cfg e) t)).sum
      else 0) := by
  rw [eventRecords_filter_key]
  by_cases h : e.timestamp_utc = some d
  · rw [if_pos h, if_pos h, List.map_map]
    rfl
  · rw [if_neg h, if_neg h]
    rfl

theorem perEvent_intensity (cfg : EventTypesConfig) (e : Event) (d : ℤ)
    (f : String) :
    (((eventRecords cfg e).filter
      (fun r => r.date = d ∧ r.factor_code = f)).map (·.abs_score)).sum =
      (if e.timestamp_utc = some d then
        ((e.factor_tags.filter (fun t => t.factor.getD "" = f)).map
          (fun t => |specSignedScore (calculate_event_impact_score cfg e) t|)).sum
      else 0) := by
  rw [eventRecords_filter_key]
  by_cases h : e.timestamp_utc = some d
  · rw [if_pos h, if_pos h, List.map_map]
    rfl
  · rw [if_neg h, if_neg h]
    rfl

theorem perEvent_count (cfg : EventTypesConfig) (e : Event) (d : ℤ) (f : String) :
    ((eventRecords cfg e).filter
      (fun r => r.date = d ∧ r.factor_code = f)).length =
      (if e.timestamp_utc = some d then
        (e.factor_tags.filter (fun t => t.factor.getD "" = f)).length
      else 0) := by
  rw [eventRecords_filter_key]
  by_cases h : e.timestamp_utc = some d
  · rw [if_pos h, if_pos h, List.length_map]
  · rw [if_neg h, if_neg h]
    rfl

/-- C7: per-tag signed scores follow the polarity policy (`+` gives
`impact*strength`, `-` gives `-impact*strength`, anything else gives `0`),
and every output group's `score`/`intensity` is the sum of (absolute) signed
contributions over the original events. -/
theorem C7_polarity_and_group_sums :
    (∀ (impact : ℚ) (d : ℤ) (eid : String) (tag : FactorTag),
      (tagRecord impact d eid tag).signed_score = specSignedScore impact tag) ∧
    (∀ (cfg : EventTypesConfig) (events : List Event) (r : FactorDayRecord),
      r ∈ aggregate_factor_scores_by_day cfg events →
      r.score = specGroupScore cfg events r.date r.factor_code ∧
      r.intensity = specGroupIntensity cfg events r.date r.factor_code) := by
  constructor
  · intro impact d eid tag
    rfl
  · intro cfg events r hr
    rcases mem_aggregate hr with ⟨k, rfl⟩
    constructor
    · show (((events.flatMap (eventRecords cfg)).filter
          (fun x => x.date = k.1 ∧ x.factor_code = k.2)).map (·.signed_score)).sum =
        specGroupScore cfg events k.1 k.2
      rw [sum_map_filter_flatMap]
      unfold specGroupScore
      congr 1
      apply List.map_congr_left
      intro e _
      exact perEvent_score cfg e k.1 k.2
    · show (((events.flatMap (eventRecords cfg)).filter
          (fun x => x.date = k.1 ∧ x.factor_code = k.2)).map (·.abs_score)).sum =
        specGroupIntensity cfg events k.1 k.2
      rw [sum_map_filter_flatMap]
      unfold specGroupIntensity
      congr 1
      apply List.map_congr_left
      intro e _
      exact perEvent_intensity cfg e k.1 k.2

/-- Shared helper: the one output row of aggregating a single neutral-polarity
single-tag event. -/
theorem neutralRow_mem :
    (⟨3, "F", 0, 0, 1⟩ : FactorDayRecord) ∈
      aggregate_factor_scores_by_day [] [eventNeutral] := by
  simp [aggregate_factor_scores_by_day, eventRecords, eventNeutral, uniqueKeep,
    groupRow, tagRecord, List.filter]

/-- Concrete instantiation of `C7_polarity_and_group_sums`. -/
theorem C7_witness :
    (⟨3, "F", 0, 0, 1⟩ : FactorDayRecord).score =
      specGroupScore [] [eventNeutral] 3 "F" ∧
    (⟨3, "F", 0, 0, 1⟩ : FactorDayRecord).intensity =
      specGroupIntensity [] [eventNeutral] 3 "F" :=
  C7_polarity_and_group_sums.2 [] [eventNeutral] ⟨3, "F", 0, 0, 1⟩ neutralRow_mem

/-- C3 counterexample: a single event with two tags naming the same factor
is counted twice by `event_count` (the output's only group reads `2`),
while the number of distinct contributing events is `1`. -/
theorem C3_counterexample :
    ((aggregate_factor_scores_by_day [("T", some (6/10))] [eventDupTags]).map
      (fun r => (r.date, r.factor_code, r.event_count))) = [(0, "F", 2)] ∧
    specDistinctEventCount [eventDupTags] 0 "F" = 1 := by
  constructor
  · decide
  · decide

/-- C3 (amended): `event_count` equals the number of contributing
(event, tag) pairs — the total count of tags naming the group's factor over
events with a parseable timestamp on the group's date. -/
theorem C3_event_count_amended :
    ∀ (cfg : EventTypesConfig) (events : List Event) (r : FactorDayRecord),
      r ∈ aggregate_factor_scores_by_day cfg events →
      r.event_count = specTagCount events r.date r.factor_code := by
  intro cfg events r hr
  rcases mem_aggregate hr with ⟨k, rfl⟩
  show ((events.flatMap (eventRecords cfg)).filter
      (fun x => x.date = k.1 ∧ x.factor_code = k.2)).length =
    specTagCount events k.1 k.2
  rw [length_filter_flatMap]
  unfold specTagCount
  congr 1
  apply List.map_congr_left
  intro e _
  exact perEvent_count cfg e k.1 k.2

/-- Concrete instantiation of `C3_event_count_amended`. -/
theorem C3_witness :
    (⟨3, "F", 0, 0, 1⟩ : FactorDayRecord).event_count =
      specTagCount [eventNeutral] 3 "F" :=
  C3_event_count_amended [] [eventNeutral] ⟨3, "F", 0, 0, 1⟩ neutralRow_mem


@[simp] theorem denseRow_date (daily : List FactorDayRecord) (f : String) (d : ℤ) :
    (denseRow daily f d).date = d := by
  unfold denseRow
  split <;> rfl

@[simp] theorem denseRow_factor_code (daily : List FactorDayRecord) (f : String)
    (d : ℤ) : (denseRow daily f d).factor_code = f := by
  unfold denseRow
  split <;> rfl

/-- C5: for every input and every `start <= end`, the densified series has
exactly one row per (calendar day in range, factor seen in the input); a
(day, factor) pair absent from the input yields the all-zero row; the empty
input yields the empty series. -/
theorem C5_densification_complete :
    (∀ (daily : List FactorDayRecord) (s e d : ℤ) (f : String),
      ((create_factor_timeseries daily s e).filter
        (fun r => r.date = d ∧ r.factor_code = f)).length =
        if s ≤ d ∧ d ≤ e ∧ f ∈ daily.map (·.factor_code) then 1 else 0) ∧
    (∀ (daily : List FactorDayRecord) (s e d : ℤ) (f : String),
      s ≤ d → d ≤ e → f ∈ daily.map (·.factor_code) →
      daily.find? (fun q => q.factor_code = f ∧ q.date = d) = none →
      (⟨d, f, 0, 0, 0⟩ : FactorDayRecord) ∈ create_factor_timeseries daily s e) ∧
    (∀ s e : ℤ, create_factor_timeseries [] s e = []) := by
  refine ⟨?_, ?_, fun s e => rfl⟩
  · intro daily s e d f
    cases daily with
    | nil => simp [create_factor_timeseries]
    | cons r0 rest =>
      unfold create_factor_timeseries
      rw [if_neg (by simp)]
      rw [length_filter_flatMap]
      have hfs : ∀ f' : String,
          (((dateRange s e).map (denseRow (r0 :: rest) f')).filter
            (fun r => r.date = d ∧ r.factor_code = f)).length =
          if f' = f then (if s ≤ d ∧ d ≤ e then 1 else 0) else 0 := by
        intro f'
        rw [List.filter_map, List.length_map]
        by_cases hf : f' = f
        · subst hf
          rw [if_pos rfl]
          have hpt : ∀ x ∈ dateRange s e,
              ((fun r => decide (r.date = d ∧ r.factor_code = f')) ∘
                denseRow (r0 :: rest) f') x = (fun x => decide (x = d)) x := by
            intro x _
            simp [Function.comp]
          rw [List.filter_congr hpt, length_filter_eq_of_nodup (nodup_dateRange s e)]
          by_cases hd : d ∈ dateRange s e
          · rw [if_pos hd, if_pos (mem_dateRange.mp hd)]
          · rw [if_neg hd, if_neg (fun hc => hd (mem_dateRange.mpr hc))]
        · rw [if_neg hf]
          have hpt : ∀ x ∈ dateRange s e,
              ((fun r => decide (r.date = d ∧ r.factor_code = f)) ∘
                denseRow (r0 :: rest) f') x = (fun _ => false) x := by
            intro x _
            simp [Function.comp, hf]
          rw [List.filter_congr hpt, List.filter_false]
          rfl
      rw [List.map_congr_left (fun f' _ => hfs f')]
      rw [sum_ite_mem (nodup_uniqueKeep _) f (if s ≤ d ∧ d ≤ e then 1 else 0)]
      simp only [mem_uniqueKeep]
      split_ifs <;> tauto
  · intro daily s e d f h1 h2 hf hfind
    unfold create_factor_timeseries
    have hne : daily.isEmpty = false := by
      cases daily
      · simp at hf
      · rfl
    rw [if_neg (by simp [hne])]
    apply List.mem_flatMap.mpr
    refine ⟨f, mem_uniqueKeep.mpr hf, ?_⟩
    apply List.mem_map.mpr
    refine ⟨d, mem_dateRange.mpr ⟨h1, h2⟩, ?_⟩
    unfold denseRow
    rw [hfind]

/-- Concrete instantiation of `C5_densification_complete`. -/
theorem C5_witness :
    (⟨4, "A", 0, 0, 0⟩ : FactorDayRecord) ∈
      create_factor_timeseries [⟨5, "A", 1, 2, 3⟩] 4 6 :=
  C5_densification_complete.2.1 [⟨5, "A", 1, 2, 3⟩] 4 6 4 "A" (by norm_num)
    (by norm_num) (by simp) (by decide)

theorem filter_key_eq_toList {price : List (ℤ × ℚ)}
    (h : (price.map Prod.fst).Nodup) (d : ℤ) :
    price.filter (fun p => p.1 = d) = (price.find? (fun p => p.1 = d)).toList := by
  induction price with
  | nil => rfl
  | cons a ps ih =>
    rw [List.map_cons, List.nodup_cons] at h
    obtain ⟨ha, hps⟩ := h
    by_cases hd : a.1 = d
    · have hnil : ps.filter (fun p => p.1 = d) = [] := by
        apply List.filter_eq_nil_iff.mpr
        intro p hp
        simp only [decide_eq_true_eq]
        intro hpd
        exact ha (hd ▸ hpd ▸ List.mem_map_of_mem Prod.fst hp)
      simp [List.filter_cons, List.find?_cons, hd, hnil]
    · simp [List.filter_cons, List.find?_cons, hd, ih hps]

theorem mergeLeft_eq_map (ts : List FactorDayRecord) (price : List (ℤ × ℚ))
    (h : (price.map Prod.fst).Nodup) :
    mergeLeft ts price =
      ts.map (fun r => (r, (price.find? (fun p => p.1 = r.date)).map Prod.snd)) := by
  unfold mergeLeft
  induction ts with
  | nil => rfl
  | cons r rs ih =>
    rw [List.flatMap_cons, ih, List.map_cons]
    rw [filter_key_eq_toList h]
    cases hf : price.find? (fun p => p.1 = r.date) <;> simp [hf]

theorem ffill_map_fst (last : Option ℚ) (l : List (FactorDayRecord × Option ℚ)) :
    (ffillFrom last l).map Prod.fst = l.map Prod.fst := by
  induction l generalizing last with
  | nil => rfl
  | cons x xs ih =>
    cases x with
    | mk r p => cases p <;> simp [ffillFrom, ih]

theorem addPct_proj (seen : List (String × Option ℚ))
    (l : List (FactorDayRecord × Option ℚ)) :
    (addPct seen l).map (fun a => (a.date, a.factor_code)) =
      l.map (fun x => (x.1.date, x.1.factor_code)) := by
  induction l generalizing seen with
  | nil => rfl
  | cons x xs ih =>
    cases x with
    | mk r p => simp [addPct, ih]

/-- C4 (amended): with a non-empty dense input and non-empty price mapping
(distinct dates), `align_with_price` keeps exactly one output row per input
row, in order; at the join stage a row whose date is absent from the mapping
carries a missing price (forward filling may later supply one); with an empty
price mapping the function returns the empty frame instead. -/
theorem C4_left_join_amended :
    ∀ (ts : List FactorDayRecord) (price : List (ℤ × ℚ)),
      ts ≠ [] → price ≠ [] → (price.map Prod.fst).Nodup →
      ((align_with_price ts price).map (fun r => (r.date, r.factor_code)) =
        ts.map (fun r => (r.date, r.factor_code))) ∧
      mergeLeft ts price =
        ts.map (fun r => (r, (price.find? (fun p => p.1 = r.date)).map Prod.snd)) := by
  intro ts price hts hpr hnd
  have hm := mergeLeft_eq_map ts price hnd
  refine ⟨?_, hm⟩
  unfold align_with_price
  have h1 : ts.isEmpty = false := by
    cases ts
    · exact absurd rfl hts
    · rfl
  have h2 : price.isEmpty = false := by
    cases price
    · exact absurd rfl hpr
    · rfl
  rw [if_neg (by simp [h1, h2])]
  rw [addPct_proj]
  have : ∀ (l : List (FactorDayRecord × Option ℚ)),
      l.map (fun x => (x.1.date, x.1.factor_code)) =
        (l.map Prod.fst).map (fun r => (r.date, r.factor_code)) := by
    intro l
    rw [List.map_map]
    rfl
  rw [this, ffill_map_fst, hm, List.map_map, List.map_map]
  rfl

/-- C4 counterexample: with an empty price mapping the claimed one-output-row
-per-input-row property fails — the guard returns an empty frame. -/
theorem C4_counterexample :
    (align_with_price [⟨0, "A", 0, 0, 0⟩] []).length ≠
      ([⟨0, "A", 0, 0, 0⟩] : List FactorDayRecord).length := by
  simp [align_with_price]

/-- Concrete instantiation of `C4_left_join_amended`. -/
theorem C4_witness :
    ((align_with_price [⟨0, "A", 0, 0, 0⟩] [(0, 5)]).map
        (fun r => (r.date, r.factor_code)) =
      ([⟨0, "A", 0, 0, 0⟩] : List FactorDayRecord).map
        (fun r => (r.date, r.factor_code))) ∧
    mergeLeft [⟨0, "A", 0, 0, 0⟩] [(0, 5)] =
      ([⟨0, "A", 0, 0, 0⟩] : List FactorDayRecord).map
        (fun r => (r, (([(0, 5)] : List (ℤ × ℚ)).find?
          (fun p => p.1 = r.date)).map Prod.snd)) :=
  C4_left_join_amended [⟨0, "A", 0, 0, 0⟩] [(0, 5)] (by decide) (by decide) (by decide)


/-- C2 (code behaviour at the failing input): `ffill` runs over the whole
concatenated frame, so factor B's day-0 row — dated before the first date
present in the price mapping — receives factor A's day-2 forward-filled
price (10) instead of keeping the price absent, while factor A's own day-0
row (the first block) correctly stays missing. -/
theorem C2_ffill_crosses_factor_groups :
    ((align_with_price
        (create_factor_timeseries [⟨1, "A", 1, 1, 1⟩, ⟨1, "B", 2, 2, 1⟩] 0 2)
        [(1, 10)]).filter (fun r => r.factor_code = "B" ∧ r.date = 0)).map
      (fun r => r.gold_price) = [some 10] ∧
    ((align_with_price
        (create_factor_timeseries [⟨1, "A", 1, 1, 1⟩, ⟨1, "B", 2, 2, 1⟩] 0 2)
        [(1, 10)]).filter (fun r => r.factor_code = "A" ∧ r.date = 0)).map
      (fun r => r.gold_price) = [none] := by
  constructor
  · decide
  · decide

theorem curve_sums (aligned : List AlignedRow) (w : ℕ) (d : ℤ)
    (h : aligned.isEmpty = false) :
    ((calculate_factor_influence_curve aligned w).filter
      (fun r => r.date = d)).map (·.rolling_intensity) =
      ((combinedRows aligned w).filter (fun r => r.base.date = d)).map
        (fun r => r.rolling_intensity) ∧
    ((calculate_factor_influence_curve aligned w).filter
      (fun r => r.date = d)).map (·.normalized_influence) =
      ((combinedRows aligned w).filter (fun r => r.base.date = d)).map
        (fun r => r.rolling_intensity /
          (dailyTotal (combinedRows aligned w) r.base.date + 1/1000000)) := by
  have hcurve : calculate_factor_influence_curve aligned w =
      (combinedRows aligned w).map (fun r =>
        (⟨r.base.date, r.base.factor_code,
          r.rolling_intensity /
            (dailyTotal (combinedRows aligned w) r.base.date + 1/1000000),
          r.rolling_intensity, r.base.score, r.base.gold_price⟩ : InfluenceRow)) := by
    rw [calculate_factor_influence_curve, if_neg (by simp [h])]
  constructor
  · rw [hcurve, List.filter_map, List.map_map]
    exact rfl
  · rw [hcurve, List.filter_map, List.map_map]
    exact rfl

/-- C1 (amended): on every date whose factors' rolling intensities total at
least `0.01`, the normalized influences over all factors for that date sum
to `1` within an absolute tolerance of `1e-4`. -/
theorem C1_normalization_amended :
    ∀ (aligned : List AlignedRow) (w : ℕ) (d : ℤ),
      (1:ℚ)/100 ≤ (((calculate_factor_influence_curve aligned w).filter
        (fun r => r.date = d)).map (·.rolling_intensity)).sum →
      |(((calculate_factor_influence_curve aligned w).filter
        (fun r => r.date = d)).map (·.normalized_influence)).sum - 1| ≤ 1/10000 := by
  intro aligned w d hT
  cases ha : aligned.isEmpty with
  | true =>
    exfalso
    rw [calculate_factor_influence_curve, if_pos ha] at hT
    norm_num at hT
  | false =>
    obtain ⟨hroll, hnorm⟩ := curve_sums aligned w d ha
    rw [hroll] at hT
    rw [hnorm]
    have hT2 : (1:ℚ)/100 ≤ dailyTotal (combinedRows aligned w) d := hT
    have hcong : ∀ r ∈ (combinedRows aligned w).filter (fun r => r.base.date = d),
        (fun r => r.rolling_intensity /
          (dailyTotal (combinedRows aligned w) r.base.date + 1/1000000)) r =
        (fun r => r.rolling_intensity /
          (dailyTotal (combinedRows aligned w) d + 1/1000000)) r := by
      intro r hr
      rcases List.mem_filter.mp hr with ⟨_, hd⟩
      simp only [decide_eq_true_eq] at hd
      simp only [hd]
    rw [List.map_congr_left hcong, sum_map_div]
    have hnum : ((List.filter (fun r => r.base.date = d)
        (combinedRows aligned w)).map (fun r => r.rolling_intensity)).sum =
        dailyTotal (combinedRows aligned w) d := rfl
    rw [hnum]
    set T := dailyTotal (combinedRows aligned w) d
    have hpos : (0:ℚ) < T + 1/1000000 := by linarith
    have heq : T / (T + 1/1000000) - 1 = -((1/1000000) / (T + 1/1000000)) := by
      field_simp
    rw [heq, abs_neg, abs_of_nonneg (by positivity)]
    rw [div_le_iff₀ hpos]
    linarith

/-- C1 counterexample: a date on which the only factor has the nonzero
rolling intensity `1e-6` gets a normalized-influence sum of `1/2`, far
outside the claimed `1e-4` tolerance of `1`. -/
theorem C1_counterexample :
    calculate_factor_influence_curve [⟨0, "A", 0, 1/1000000, 0, none, none⟩] 7 =
      [⟨0, "A", 1/2, 1/1000000, 0, none⟩] ∧
    ¬ |((1:ℚ)/2) - 1| ≤ 1/10000 := by
  constructor
  · simp [calculate_factor_influence_curve, combinedRows, uniqueKeep,
      factorRolling, sortOn, insertSorted, rollingSums, dailyTotal,
      List.range_succ]
    norm_num
  · intro hc
    rw [show ((1:ℚ)/2 - 1) = -(1/2) by norm_num, abs_neg,
      abs_of_nonneg (by norm_num : (0:ℚ) ≤ 1/2)] at hc
    norm_num at hc

/-- Concrete instantiation of `C1_normalization_amended`. -/
theorem C1_witness :
    (1:ℚ)/100 ≤ (((calculate_factor_influence_curve
        [⟨0, "A", 0, 1, 0, none, none⟩] 1).filter (fun r => r.date = 0)).map
      (·.rolling_intensity)).sum ∧
    |(((calculate_factor_influence_curve [⟨0, "A", 0, 1, 0, none, none⟩] 1).filter
        (fun r => r.date = 0)).map (·.normalized_influence)).sum - 1| ≤ 1/10000 := by
  have h : (1:ℚ)/100 ≤ (((calculate_factor_influence_curve
      [⟨0, "A", 0, 1, 0, none, none⟩] 1).filter (fun r => r.date = 0)).map
      (·.rolling_intensity)).sum := by
    simp [calculate_factor_influence_curve, combinedRows, uniqueKeep,
      factorRolling, sortOn, insertSorted, rollingSums, dailyTotal,
      List.range_succ]
    norm_num
  exact ⟨h, C1_normalization_amended _ 1 0 h⟩

end GoldLens
